import Mathlib

/-!
Verification of `src/imitation/policies/trainer.py`: the trajectory-generation
and agent-training abstraction layer (TrajectoryGenerator, TrajectoryDataset,
AgentTrainer, and the step-quota selector `_get_trajectories`).

The Python code is shallowly embedded: trajectories are records carrying a
length and a reward-source tag (environment reward as recorded by the
BufferingWrapper, versus reward substituted by the reward model); stateful
objects become explicit state records with state-passing functions; Python
exceptions become `Except String`.  External collaborators of this module
(numpy's `cumsum`/`argmax`, the `random` module's seeded generator, the
BufferingWrapper and the rollout-collection utility from other parts of the
repository) are modelled from their documented behaviour where noted.
-/

/-- Where a trajectory's recorded rewards come from: `env` is the ground-truth
environment reward (what the BufferingWrapper records), `model` is the value
substituted by the reward function/model. -/
inductive RewSrc where
  | env : RewSrc
  | model : RewSrc
deriving DecidableEq, Repr

/-- A trajectory, abstracted to the data the trainer code inspects: its number
of steps (`len(traj)`) and which reward its `rews` field carries. -/
structure Traj where
  len : Nat
  rewSrc : RewSrc
deriving DecidableEq, Repr

/-- `sum(len(traj) for traj in trajectories)`. -/
def sumLen (ts : List Traj) : Nat := (ts.map Traj.len).sum

/-- `np.cumsum` on a list of naturals: `cumsum [a, b, c] = [a, a+b, a+b+c]`. -/
def cumsum : List Nat → List Nat
  | [] => []
  | x :: xs => x :: (cumsum xs).map (x + ·)

/-- Index of the first `true` in a boolean list, and `0` if there is none:
this is `np.argmax` on a boolean array (index of the first maximal element). -/
def firstTrueIdx : List Bool → Nat
  | [] => 0
  | true :: _ => 0
  | false :: rest => if rest.contains true then firstTrueIdx rest + 1 else 0

/-- `np.ndarray.argmax`, which raises `ValueError` on an empty array and
otherwise returns the index of the first maximal element. -/
def npArgmax (l : List Bool) : Except String Nat :=
  match l with
  | [] => Except.error "attempt to get argmax of an empty sequence"
  | _ => Except.ok (firstTrueIdx l)

/-- The message of the `RuntimeError` raised by `_get_trajectories` when too
few steps are available. -/
def getTrajectoriesMsg (steps available : Nat) : String :=
  s!"Asked for {steps} transitions but only {available} available"

/-- The slicing-and-assert tail of `_get_trajectories`, applied to the result
of the `argmax` call: `trajectories = trajectories[: idx + 1]` followed by
`assert sum(len(traj) for traj in trajectories) >= steps`. -/
def sliceAndCheck (trajectories : List Traj) (steps : Nat) :
    Except String Nat → Except String (List Traj)
  | Except.error e => Except.error e
  | Except.ok idx =>
    if steps ≤ sumLen (trajectories.take (idx + 1)) then
      Except.ok (trajectories.take (idx + 1))
    else
      Except.error "assert sum(len(traj) for traj in trajectories) >= steps"

/-- `_get_trajectories(trajectories, steps)`: raise if fewer than `steps`
steps are available in total, otherwise take the prefix up to (and including)
the first index whose cumulative length sum reaches `steps`. -/
def getTrajectories (trajectories : List Traj) (steps : Nat) :
    Except String (List Traj) :=
  if sumLen trajectories < steps then
    Except.error (getTrajectoriesMsg steps (sumLen trajectories))
  else
    sliceAndCheck trajectories steps
      (npArgmax ((cumsum (trajectories.map Traj.len)).map
        (fun c => decide (steps ≤ c))))

theorem sumLen_nil : sumLen [] = 0 := rfl

theorem sumLen_cons (t : Traj) (ts : List Traj) :
    sumLen (t :: ts) = t.len + sumLen ts := by
  simp [sumLen]

theorem sumLen_append (a b : List Traj) :
    sumLen (a ++ b) = sumLen a + sumLen b := by
  simp [sumLen]

theorem sumLen_reverse (ts : List Traj) : sumLen ts.reverse = sumLen ts := by
  simp [sumLen, List.sum_reverse]

/-- Core property of the `cumsum`/`argmax` selection: if `1 ≤ steps ≤ sum l`,
the boolean array `cumsum l >= steps` contains a `true`, its first `true`
index is a valid index of `l`, the prefix through that index reaches `steps`,
and the prefix strictly before it does not. -/
theorem cumsum_sel (l : List Nat) (steps : Nat)
    (h1 : 1 ≤ steps) (h2 : steps ≤ l.sum) :
    ((cumsum l).map (fun c => decide (steps ≤ c))).contains true = true ∧
    firstTrueIdx ((cumsum l).map (fun c => decide (steps ≤ c))) < l.length ∧
    steps ≤ (l.take (firstTrueIdx ((cumsum l).map (fun c => decide (steps ≤ c))) + 1)).sum ∧
    (l.take (firstTrueIdx ((cumsum l).map (fun c => decide (steps ≤ c))))).sum < steps := by
  induction l generalizing steps with
  | nil =>
    simp only [List.sum_nil] at h2
    omega
  | cons a rest ih =>
    simp only [List.sum_cons] at h2
    by_cases hle : steps ≤ a
    · have hbs : ((cumsum (a :: rest)).map (fun c => decide (steps ≤ c))) =
          true :: ((cumsum rest).map (a + ·)).map (fun c => decide (steps ≤ c)) := by
        simp only [cumsum, List.map_cons]
        rw [decide_eq_true hle]
      rw [hbs]
      refine ⟨by rw [List.contains_cons]; rfl, by simp [firstTrueIdx], ?_, ?_⟩
      · have h0 : firstTrueIdx (true ::
            ((cumsum rest).map (a + ·)).map (fun c => decide (steps ≤ c))) = 0 := rfl
        rw [h0, List.take_succ_cons, List.take_zero, List.sum_cons, List.sum_nil]
        omega
      · have h0 : firstTrueIdx (true ::
            ((cumsum rest).map (a + ·)).map (fun c => decide (steps ≤ c))) = 0 := rfl
        rw [h0, List.take_zero, List.sum_nil]
        omega
    · have hlt : a < steps := by omega
      have hfun : (fun c => decide (steps ≤ c)) ∘ (a + ·) =
          (fun c => decide (steps - a ≤ c)) := by
        funext c
        simp only [Function.comp_apply]
        exact decide_eq_decide.mpr (by omega)
      have hbs : ((cumsum (a :: rest)).map (fun c => decide (steps ≤ c))) =
          false :: (cumsum rest).map (fun c => decide (steps - a ≤ c)) := by
        simp only [cumsum, List.map_cons, List.map_map, hfun]
        rw [decide_eq_false hle]
      obtain ⟨hc, hidx, hge, hlt2⟩ := ih (steps - a) (by omega) (by omega)
      rw [hbs]
      have hstep : firstTrueIdx
          (false :: (cumsum rest).map (fun c => decide (steps - a ≤ c))) =
          firstTrueIdx ((cumsum rest).map (fun c => decide (steps - a ≤ c))) + 1 := by
        simp only [firstTrueIdx]
        rw [if_pos hc]
      rw [hstep]
      refine ⟨by rw [List.contains_cons, hc]; rfl, by simpa using hidx, ?_, ?_⟩
      · rw [List.take_succ_cons, List.sum_cons]
        omega
      · rw [List.take_succ_cons, List.sum_cons]
        omega

theorem npArgmax_ne_nil (l : List Bool) (h : l ≠ []) :
    npArgmax l = Except.ok (firstTrueIdx l) := by
  cases l with
  | nil => exact absurd rfl h
  | cons a t => rfl

/-- Success specification of `_get_trajectories`: for `1 ≤ steps ≤ sumLen ts`
it returns the prefix `ts.take (idx + 1)` for the first index `idx` whose
cumulative sum reaches `steps`; that prefix meets the quota and the prefix one
element shorter does not. -/
theorem getTrajectories_ok (ts : List Traj) (steps : Nat)
    (h1 : 1 ≤ steps) (h2 : steps ≤ sumLen ts) :
    ∃ idx, idx < ts.length ∧
      getTrajectories ts steps = Except.ok (ts.take (idx + 1)) ∧
      steps ≤ sumLen (ts.take (idx + 1)) ∧
      sumLen (ts.take idx) < steps := by
  have hsum : steps ≤ (ts.map Traj.len).sum := by simpa [sumLen] using h2
  obtain ⟨hc, hidx, hge, hlt⟩ := cumsum_sel (ts.map Traj.len) steps h1 hsum
  have hlen : (ts.map Traj.len).length = ts.length := List.length_map ts Traj.len
  have htake : ∀ k, sumLen (ts.take k) = ((ts.map Traj.len).take k).sum := by
    intro k
    simp [sumLen, List.map_take]
  have hne : ts ≠ [] := by
    intro h
    subst h
    simp [sumLen] at h2
    omega
  have hbsne : ((cumsum (ts.map Traj.len)).map (fun c => decide (steps ≤ c))) ≠ [] := by
    cases ts with
    | nil => exact absurd rfl hne
    | cons a t => simp [cumsum]
  refine ⟨firstTrueIdx ((cumsum (ts.map Traj.len)).map (fun c => decide (steps ≤ c))),
    by omega, ?_, by rw [htake]; exact hge, by rw [htake]; exact hlt⟩
  have hargmax := npArgmax_ne_nil _ hbsne
  rw [getTrajectories, if_neg (by omega), hargmax, sliceAndCheck,
    if_pos (by rw [htake]; exact hge)]

/-- Dropping the last element of a `(idx+1)`-prefix gives the `idx`-prefix. -/
theorem dropLast_take_succ (ts : List Traj) (idx : Nat) (h : idx < ts.length) :
    (ts.take (idx + 1)).dropLast = ts.take idx := by
  rw [List.take_succ, List.getElem?_eq_getElem h, Option.toList_some,
    List.dropLast_concat]

/-- C1 (amended: requires `1 ≤ steps`): for every trajectory sequence and every
`steps` with `1 ≤ steps ≤` the total summed length, `_get_trajectories`
returns a contiguous prefix of the input in input order whose summed length is
at least `steps`, and removing the prefix's last element drops the summed
length below `steps`. -/
theorem getTrajectories_minimal_selection (ts : List Traj) (steps : Nat)
    (h1 : 1 ≤ steps) (h2 : steps ≤ sumLen ts) :
    ∃ k, getTrajectories ts steps = Except.ok (ts.take k) ∧
      steps ≤ sumLen (ts.take k) ∧
      sumLen ((ts.take k).dropLast) < steps := by
  obtain ⟨idx, hidx, heq, hge, hlt⟩ := getTrajectories_ok ts steps h1 h2
  exact ⟨idx + 1, heq, hge, by rwa [dropLast_take_succ ts idx hidx]⟩

/-- Witness for C1 (the spec's own example, lengths `[4, 5, 2]`, `steps = 6`):
the hypotheses hold and the minimal-prefix conclusion follows. -/
theorem getTrajectories_minimal_selection_witness :
    1 ≤ 6 ∧
    6 ≤ sumLen [Traj.mk 4 RewSrc.env, Traj.mk 5 RewSrc.env, Traj.mk 2 RewSrc.env] ∧
    (∃ k, getTrajectories
        [Traj.mk 4 RewSrc.env, Traj.mk 5 RewSrc.env, Traj.mk 2 RewSrc.env] 6 =
        Except.ok ([Traj.mk 4 RewSrc.env, Traj.mk 5 RewSrc.env,
          Traj.mk 2 RewSrc.env].take k) ∧
      6 ≤ sumLen ([Traj.mk 4 RewSrc.env, Traj.mk 5 RewSrc.env,
          Traj.mk 2 RewSrc.env].take k) ∧
      sumLen (([Traj.mk 4 RewSrc.env, Traj.mk 5 RewSrc.env,
          Traj.mk 2 RewSrc.env].take k).dropLast) < 6) :=
  ⟨by decide, by decide,
    getTrajectories_minimal_selection
      [Traj.mk 4 RewSrc.env, Traj.mk 5 RewSrc.env, Traj.mk 2 RewSrc.env] 6
      (by decide) (by decide)⟩

/-- Counterexample to C1 as stated: at `steps = 0` (which is at most the total
summed length `1`), the selector returns the one-trajectory prefix, yet
removing that prefix's last element leaves summed length `0`, which is NOT
below `steps = 0` — minimality as claimed fails. -/
theorem getTrajectories_zero_steps_cex :
    0 ≤ sumLen [Traj.mk 1 RewSrc.env] ∧
    getTrajectories [Traj.mk 1 RewSrc.env] 0 = Except.ok [Traj.mk 1 RewSrc.env] ∧
    ¬ sumLen ([Traj.mk 1 RewSrc.env].dropLast) < 0 :=
  ⟨Nat.zero_le _, rfl, by omega⟩

/-- C2: whenever the requested `steps` exceeds the total available length,
`_get_trajectories` fails with the `RuntimeError` naming both the requested
and the available step counts, and returns no (partial) result. -/
theorem getTrajectories_insufficient (ts : List Traj) (steps : Nat)
    (h : sumLen ts < steps) :
    getTrajectories ts steps =
      Except.error (getTrajectoriesMsg steps (sumLen ts)) ∧
    getTrajectoriesMsg steps (sumLen ts) =
      "Asked for " ++ toString steps ++ " transitions but only " ++
        toString (sumLen ts) ++ " available" := by
  constructor
  · rw [getTrajectories, if_pos h]
  · rfl

/-- Witness for C2: one trajectory of length 2, `steps = 5`. -/
theorem getTrajectories_insufficient_witness :
    sumLen [Traj.mk 2 RewSrc.env] < 5 ∧
    (getTrajectories [Traj.mk 2 RewSrc.env] 5 =
      Except.error (getTrajectoriesMsg 5 (sumLen [Traj.mk 2 RewSrc.env])) ∧
    getTrajectoriesMsg 5 (sumLen [Traj.mk 2 RewSrc.env]) =
      "Asked for " ++ toString 5 ++ " transitions but only " ++
        toString (sumLen [Traj.mk 2 RewSrc.env]) ++ " available") :=
  ⟨by decide, getTrajectories_insufficient [Traj.mk 2 RewSrc.env] 5 (by decide)⟩

/-- C9: on the empty trajectory sequence with `steps = 0` the insufficient-
steps guard passes (available `0` is not less than requested `0`), yet the
function still fails: `np.argmax` raises on the empty cumulative-sum array
instead of the function returning the empty prefix. -/
theorem getTrajectories_empty_zero :
    ¬ sumLen ([] : List Traj) < 0 ∧
    getTrajectories [] 0 =
      Except.error "attempt to get argmax of an empty sequence" :=
  ⟨by omega, rfl⟩

/-- The structured logger injected into generators (`imitation.util.logger`),
abstracted to an opaque handle identified by a number. -/
structure Logger where
  id : Nat
deriving DecidableEq, Repr

/-- Extra keyword options forwarded by `train` to the underlying procedure. -/
abbrev Kwargs := List (String × Nat)

/-- Model of Python's `random` module as used by `TrajectoryDataset`:
`ofSeed` is `random.Random(seed)` and `shuffle` is `rng.shuffle(xs)`, a
deterministic function of the generator state that returns the permuted list
together with the advanced generator state. -/
structure RandomModel (σ : Type) where
  ofSeed : Nat → σ
  shuffle : σ → List Traj → List Traj × σ

/-- `TrajectoryDataset` instance state: the trajectory collection loaded from
`path` at construction (`self._trajectories`), the seeded generator
(`self.rng`), and the logger installed by `TrajectoryGenerator.__init__`. -/
structure TrajectoryDataset (σ : Type) where
  trajectories : List Traj
  rng : σ
  logger : Logger

/-- `TrajectoryDataset.__init__`: store the loaded trajectories (`loadedTrajs`
stands for `types.load(path)`), seed a fresh generator, install the logger. -/
def TrajectoryDataset.make {σ : Type} (M : RandomModel σ) (loadedTrajs : List Traj)
    (seed : Nat) (customLogger : Logger) : TrajectoryDataset σ :=
  { trajectories := loadedTrajs, rng := M.ofSeed seed, logger := customLogger }

/-- `TrajectoryDataset.sample(steps)`: copy the stored collection, shuffle the
copy with the instance's own generator (advancing its state), and apply
`_get_trajectories`. -/
def TrajectoryDataset.sample {σ : Type} (M : RandomModel σ)
    (d : TrajectoryDataset σ) (steps : Nat) :
    Except String (List Traj) × TrajectoryDataset σ :=
  let copy := d.trajectories
  let shuffled := M.shuffle d.rng copy
  (getTrajectories shuffled.1 steps, { d with rng := shuffled.2 })

/-- The sequence of results of consecutive `sample` calls on one instance,
threading the instance state from call to call. -/
def TrajectoryDataset.sampleSeq {σ : Type} (M : RandomModel σ)
    (d : TrajectoryDataset σ) : List Nat → List (Except String (List Traj))
  | [] => []
  | s :: rest =>
    (TrajectoryDataset.sample M d s).1 ::
      TrajectoryDataset.sampleSeq M (TrajectoryDataset.sample M d s).2 rest

/-- `TrajectoryGenerator.train(steps, **kwargs)` as inherited (not overridden)
by `TrajectoryDataset`: the body is empty, so it raises nothing, returns
`None`, and leaves the instance untouched. -/
def TrajectoryGenerator.defaultTrain {σ : Type} (d : TrajectoryDataset σ)
    (steps : Nat) (kwargs : Kwargs) :
    Except String Unit × TrajectoryDataset σ :=
  (Except.ok (), d)

/-- Sample outputs depend only on the stored trajectories and the generator
state, not on the logger. -/
theorem sampleSeq_congr {σ : Type} (M : RandomModel σ) (calls : List Nat) :
    ∀ (d1 d2 : TrajectoryDataset σ), d1.trajectories = d2.trajectories →
      d1.rng = d2.rng →
      TrajectoryDataset.sampleSeq M d1 calls =
        TrajectoryDataset.sampleSeq M d2 calls := by
  induction calls with
  | nil => intro d1 d2 _ _; rfl
  | cons s rest ih =>
    intro d1 d2 ht hr
    simp only [TrajectoryDataset.sampleSeq, TrajectoryDataset.sample]
    rw [ht, hr]
    exact congrArg (List.cons _) (ih _ _ (by simp [ht]) (by simp))

/-- A concrete `RandomModel` used to exhibit that consecutive calls consume
the permutation stream: state is a counter, `shuffle` rotates by the counter
and increments it. -/
def rotModel : RandomModel Nat :=
  { ofSeed := fun seed => seed
    shuffle := fun s l => (l.drop (s % l.length) ++ l.take (s % l.length), s + 1) }

/-- C5: (a) two freshly constructed `TrajectoryDataset` instances with the
same seed and the same source collection produce identical sequences of
`sample` results (whatever their loggers); (b) each `sample` call advances
the instance's own generator state with the `shuffle` step rather than
resetting it; (c) concretely (under `rotModel`), a second call with the same
argument can return a different shuffle than the first: `[1, 1]` yields first
the length-1 trajectory, then the length-2 one. -/
theorem trajectoryDataset_seed_reproducible :
    (∀ (σ : Type) (M : RandomModel σ) (loadedTrajs : List Traj) (seed : Nat)
      (lg1 lg2 : Logger) (calls : List Nat),
      TrajectoryDataset.sampleSeq M
          (TrajectoryDataset.make M loadedTrajs seed lg1) calls =
        TrajectoryDataset.sampleSeq M
          (TrajectoryDataset.make M loadedTrajs seed lg2) calls) ∧
    (∀ (σ : Type) (M : RandomModel σ) (d : TrajectoryDataset σ) (steps : Nat),
      (TrajectoryDataset.sample M d steps).2.rng =
        (M.shuffle d.rng d.trajectories).2) ∧
    (TrajectoryDataset.sampleSeq rotModel
        (TrajectoryDataset.make rotModel
          [Traj.mk 1 RewSrc.env, Traj.mk 2 RewSrc.env] 0 (Logger.mk 0)) [1, 1] =
      [Except.ok [Traj.mk 1 RewSrc.env], Except.ok [Traj.mk 2 RewSrc.env]] ∧
      Traj.mk 1 RewSrc.env ≠ Traj.mk 2 RewSrc.env) := by
  refine ⟨?_, ?_, rfl, by decide⟩
  · intro σ M loadedTrajs seed lg1 lg2 calls
    exact sampleSeq_congr M calls _ _ rfl rfl
  · intro σ M d steps
    rfl

/-- C8: the inherited default `train` is a no-op on a `TrajectoryDataset`:
no error, `None` result, and every piece of instance state (trajectory
collection, generator state, logger) is unchanged. -/
theorem trajectoryGenerator_train_noop :
    ∀ (σ : Type) (d : TrajectoryDataset σ) (steps : Nat) (kwargs : Kwargs),
      TrajectoryGenerator.defaultTrain d steps kwargs = (Except.ok (), d) ∧
      (TrajectoryGenerator.defaultTrain d steps kwargs).2.trajectories =
        d.trajectories ∧
      (TrajectoryGenerator.defaultTrain d steps kwargs).2.rng = d.rng ∧
      (TrajectoryGenerator.defaultTrain d steps kwargs).2.logger = d.logger :=
  fun _ _ _ _ => ⟨rfl, rfl, rfl, rfl⟩

/-- C10: `TrajectoryDataset.sample` shuffles only a fresh copy: the stored
trajectory collection and the logger are unchanged, and the post-state equals
the pre-state with only the generator field advanced. -/
theorem trajectoryDataset_sample_frame :
    ∀ (σ : Type) (M : RandomModel σ) (d : TrajectoryDataset σ) (steps : Nat),
      (TrajectoryDataset.sample M d steps).2 =
        { d with rng := (M.shuffle d.rng d.trajectories).2 } ∧
      (TrajectoryDataset.sample M d steps).2.trajectories = d.trajectories ∧
      (TrajectoryDataset.sample M d steps).2.logger = d.logger :=
  fun _ _ _ _ => ⟨rfl, rfl, rfl⟩

/-- A Python environment object as seen through `isinstance` checks and the
wrapper chain built by `AgentTrainer.__init__`: a plain `VecEnv`, a non-VecEnv
object, a `BufferingWrapper` over an inner env, or a `RewardVecEnvWrapper`
over an inner env with a reward function (all wrappers are `VecEnv`s). -/
inductive PyEnv where
  | vecEnv (id : Nat)
  | otherEnv (id : Nat)
  | buffering (inner : PyEnv)
  | rewardWrapper (inner : PyEnv) (rewardFnId : Nat)
deriving DecidableEq, Repr

/-- `isinstance(venv, vec_env.VecEnv)`. -/
def PyEnv.isVecEnv : PyEnv → Bool
  | PyEnv.vecEnv _ => true
  | PyEnv.otherEnv _ => false
  | PyEnv.buffering _ => true
  | PyEnv.rewardWrapper _ _ => true

/-- The trainable agent (`stable_baselines3` `BaseAlgorithm`), abstracted to
the interface the trainer uses: its environment (`get_env()`/`set_env`, `none`
when not set), its logger (`set_logger`), and the log of `learn` invocations
(each recorded with its `total_timesteps` and forwarded options). -/
structure Algorithm where
  env : Option PyEnv
  logger : Option Logger
  learnCalls : List (Nat × Kwargs)
deriving DecidableEq, Repr

/-- The reward source passed to `AgentTrainer.__init__`: a raw reward
function, or a `RewardNet` whose `predict` method is used instead. -/
inductive RewardSource where
  | fn (id : Nat)
  | net (id : Nat)
deriving DecidableEq, Repr

/-- `AgentTrainer` instance state.  The `BufferingWrapper` is repository code
outside `src/`; following the spec (§4.1) it is modelled by its observable
state: `buffer` holds the completed, not-yet-drained trajectories (recorded
with ground-truth environment reward, in completion order) and `nTransitions`
is its reported count of recorded-but-undrained transitions.  `logMsgs` and
`rolloutCalls` record the observable effects of `self.logger.log(...)` and of
`rollout.generate_trajectories` invocations (by their `min_timesteps`). -/
structure AgentTrainer where
  algorithm : Algorithm
  rewardFnId : Nat
  venv : PyEnv
  buffer : List Traj
  nTransitions : Nat
  logger : Logger
  logMsgs : List String
  rolloutCalls : List Nat
deriving DecidableEq, Repr

/-- The `ValueError` message raised when the algorithm's env is unset or not
a `VecEnv`. -/
def envNotSetMsg : String := "The environment for the agent algorithm must be set."

/-- `AgentTrainer.__init__(algorithm, reward_fn, custom_logger)`.  Returns the
constructed trainer (or the construction-time error) together with the
post-call state of the `algorithm` object, so that side effects on the agent
are observable: setting `self.logger` propagates to the algorithm, and only
after the `VecEnv` check succeeds is the wrapper chain built
(`BufferingWrapper` first, `RewardVecEnvWrapper` over it) and the agent's
environment re-pointed via `set_env`. -/
def AgentTrainer.construct (algorithm : Algorithm) (rfn : RewardSource)
    (customLogger : Logger) : Except String AgentTrainer × Algorithm :=
  let alg1 := { algorithm with logger := some customLogger }
  let reward_fn := match rfn with
    | RewardSource.fn i => i
    | RewardSource.net i => i
  match alg1.env with
  | some venv =>
    if venv.isVecEnv then
      let bufferingWrapper := PyEnv.buffering venv
      let wrapped := PyEnv.rewardWrapper bufferingWrapper reward_fn
      let alg2 := { alg1 with env := some wrapped }
      let tr : AgentTrainer :=
        { algorithm := alg2
          rewardFnId := reward_fn
          venv := wrapped
          buffer := []
          nTransitions := 0
          logger := customLogger
          logMsgs := []
          rolloutCalls := [] }
      (Except.ok tr, alg2)
    else
      (Except.error envNotSetMsg, alg1)
  | none => (Except.error envNotSetMsg, alg1)

/-- The `RuntimeError` message of `AgentTrainer.train` on a non-empty buffer. -/
def bufferLeftoverMsg (n : Nat) : String :=
  s!"There are {n} transitions left in the buffer. Call AgentTrainer.sample() first to clear them."

/-- `AgentTrainer.train(steps, **kwargs)`: raise if the buffering wrapper
reports leftover transitions, otherwise call
`self.algorithm.learn(total_timesteps=steps, **kwargs)`. -/
def AgentTrainer.train (tr : AgentTrainer) (steps : Nat) (kwargs : Kwargs) :
    Except String Unit × AgentTrainer :=
  let n_transitions := tr.nTransitions
  if n_transitions ≠ 0 then
    (Except.error (bufferLeftoverMsg n_transitions), tr)
  else
    (Except.ok (), { tr with algorithm := { tr.algorithm with
      learnCalls := tr.algorithm.learnCalls ++ [(steps, kwargs)] } })

/-- The diagnostic logged by `AgentTrainer.sample` before topping up. -/
def shortfallMsg (steps avail : Nat) : String :=
  s!"Requested {steps} transitions but only {avail} in buffer. Sampling {steps - avail} additional transitions."

/-- `AgentTrainer.sample(steps)`: drain the buffering wrapper
(`_pop_trajectories`), reverse so the most recently completed trajectories
come first, and if the drained sum falls short of `steps`, log the shortfall,
run `rollout.generate_trajectories` with `min_timesteps = steps - avail`
(discarding its direct, reward-model-tainted return value), drain again, and
append the newly drained trajectories after the reversed ones; finally apply
`_get_trajectories`.  `recorded` is the list of trajectories the buffering
wrapper records during the forced rollout (modelled from the spec, §4.1/§6:
the rollout drives the wrapped env, so the collector ends up holding them). -/
def AgentTrainer.sample (tr : AgentTrainer) (steps : Nat)
    (recorded : List Traj) : Except String (List Traj) × AgentTrainer :=
  let trajectories := tr.buffer
  let tr1 := { tr with buffer := [], nTransitions := 0 }
  let trajectories := trajectories.reverse
  let avail_steps := sumLen trajectories
  if avail_steps < steps then
    let tr2 := { tr1 with
      logMsgs := tr1.logMsgs ++ [shortfallMsg steps avail_steps],
      rolloutCalls := tr1.rolloutCalls ++ [steps - avail_steps],
      buffer := recorded }
    let additional_trajectories := tr2.buffer
    let tr3 := { tr2 with buffer := [], nTransitions := 0 }
    (getTrajectories (trajectories ++ additional_trajectories) steps, tr3)
  else
    (getTrajectories trajectories steps, tr1)

/-- `AgentTrainer`'s `logger` property setter: store the logger on the
trainer and propagate it to the wrapped algorithm via `set_logger`. -/
def AgentTrainer.setLogger (tr : AgentTrainer) (value : Logger) : AgentTrainer :=
  let tr1 := { tr with logger := value }
  { tr1 with algorithm := { tr1.algorithm with logger := some tr1.logger } }

/-- C3: `AgentTrainer.train(steps)` with unclaimed transitions in the
buffering wrapper fails with the `RuntimeError` naming the exact leftover
count, and leaves the trainer (in particular the algorithm's `learn` log)
untouched; with a zero count it delegates to the algorithm's `learn` with
the requested step count and the forwarded options. -/
theorem agentTrainer_train_guard (tr : AgentTrainer) (steps : Nat) (kwargs : Kwargs) :
    (tr.nTransitions ≠ 0 →
      AgentTrainer.train tr steps kwargs =
        (Except.error (bufferLeftoverMsg tr.nTransitions), tr) ∧
      bufferLeftoverMsg tr.nTransitions =
        "There are " ++ toString tr.nTransitions ++
          " transitions left in the buffer. Call AgentTrainer.sample() first to clear them.") ∧
    (tr.nTransitions = 0 →
      AgentTrainer.train tr steps kwargs =
        (Except.ok (), { tr with algorithm := { tr.algorithm with
          learnCalls := tr.algorithm.learnCalls ++ [(steps, kwargs)] } })) := by
  constructor
  · intro h
    constructor
    · simp only [AgentTrainer.train]
      rw [if_pos h]
    · rfl
  · intro h
    simp only [AgentTrainer.train]
    rw [if_neg (by simp [h])]

/-- A concrete trainable-agent state used by the witnesses. -/
def demoAlgorithm : Algorithm :=
  { env := some (PyEnv.vecEnv 7)
    logger := none
    learnCalls := [] }

/-- A concrete trainer whose buffering wrapper reports 2 leftover transitions. -/
def demoBusyTrainer : AgentTrainer :=
  { algorithm := demoAlgorithm
    rewardFnId := 3
    venv := PyEnv.rewardWrapper (PyEnv.buffering (PyEnv.vecEnv 7)) 3
    buffer := [Traj.mk 2 RewSrc.env]
    nTransitions := 2
    logger := Logger.mk 1
    logMsgs := []
    rolloutCalls := [] }

/-- The same trainer after its buffer has been drained. -/
def demoIdleTrainer : AgentTrainer :=
  { demoBusyTrainer with buffer := [], nTransitions := 0 }

/-- Witness for C3: with 2 leftover transitions `train` raises the message
naming 2 and does not touch `learn`; with 0 it invokes `learn(5, gamma=99)`. -/
theorem agentTrainer_train_guard_witness :
    (AgentTrainer.train demoBusyTrainer 5 [] =
      (Except.error (bufferLeftoverMsg 2), demoBusyTrainer) ∧
     bufferLeftoverMsg 2 =
      "There are " ++ toString 2 ++
        " transitions left in the buffer. Call AgentTrainer.sample() first to clear them.") ∧
    AgentTrainer.train demoIdleTrainer 5 [("gamma", 99)] =
      (Except.ok (), { demoIdleTrainer with algorithm := { demoIdleTrainer.algorithm with
        learnCalls := demoIdleTrainer.algorithm.learnCalls ++ [(5, [("gamma", 99)])] } }) :=
  ⟨(agentTrainer_train_guard demoBusyTrainer 5 []).1 (by decide),
   (agentTrainer_train_guard demoIdleTrainer 5 [("gamma", 99)]).2 (by decide)⟩

/-- C6: if the algorithm's environment is unset or not a `VecEnv`,
`AgentTrainer.__init__` fails with the `ValueError` and the agent's
environment is not re-pointed (no wrapper chain takes effect on it). -/
theorem agentTrainer_construct_env_error (algorithm : Algorithm)
    (rfn : RewardSource) (customLogger : Logger)
    (h : ∀ e, algorithm.env = some e → e.isVecEnv = false) :
    (AgentTrainer.construct algorithm rfn customLogger).1 =
      Except.error envNotSetMsg ∧
    ((AgentTrainer.construct algorithm rfn customLogger).2).env = algorithm.env := by
  obtain ⟨env0, logger0, learnCalls0⟩ := algorithm
  cases env0 with
  | none => exact ⟨rfl, rfl⟩
  | some e =>
    have he := h e rfl
    simp [AgentTrainer.construct, he]

/-- A trainable agent whose environment was never set. -/
def demoUnsetAlgorithm : Algorithm :=
  { env := none
    logger := none
    learnCalls := [] }

/-- Witness for C6: constructing from an agent with no environment fails and
leaves the agent's environment untouched. -/
theorem agentTrainer_construct_env_error_witness :
    (AgentTrainer.construct demoUnsetAlgorithm (RewardSource.fn 3) (Logger.mk 1)).1 =
      Except.error envNotSetMsg ∧
    ((AgentTrainer.construct demoUnsetAlgorithm (RewardSource.fn 3) (Logger.mk 1)).2).env =
      demoUnsetAlgorithm.env :=
  agentTrainer_construct_env_error demoUnsetAlgorithm (RewardSource.fn 3) (Logger.mk 1)
    (fun _ he => Option.noConfusion he)

/-- C7: the `logger` setter updates the trainer's own logger handle and
propagates the same logger to the wrapped algorithm via `set_logger`. -/
theorem agentTrainer_setLogger_propagates (tr : AgentTrainer) (value : Logger) :
    (AgentTrainer.setLogger tr value).logger = value ∧
    (AgentTrainer.setLogger tr value).algorithm.logger = some value :=
  ⟨rfl, rfl⟩

/-- C4 (amended: requires `1 ≤ steps`): `AgentTrainer.sample(steps)` drains the buffering wrapper and
reverses the drained list; exactly when the drained summed length falls below
`steps` it logs the shortfall diagnostic, performs one rollout collection
with `min_timesteps = steps - drained sum`, drains again, and appends the
newly drained trajectories after the reversed ones; the selector then returns
trajectories of summed length at least `steps`, all carrying the collector's
ground-truth reward (the rollout utility's direct output never enters the
result).  Hypotheses `hbuf`/`hrec`/`hmin` are the spec contracts of the
buffering wrapper (records true rewards) and of the rollout stopping rule
(at least the requested minimum of timesteps is recorded). -/
theorem agentTrainer_sample_spec (tr : AgentTrainer) (steps : Nat)
    (recorded : List Traj)
    (h1 : 1 ≤ steps)
    (hbuf : ∀ t ∈ tr.buffer, t.rewSrc = RewSrc.env)
    (hrec : ∀ t ∈ recorded, t.rewSrc = RewSrc.env)
    (hmin : steps - sumLen tr.buffer ≤ sumLen recorded) :
    ∃ res tr2, AgentTrainer.sample tr steps recorded = (Except.ok res, tr2) ∧
      steps ≤ sumLen res ∧
      (∀ t ∈ res, t.rewSrc = RewSrc.env) ∧
      tr2.buffer = [] ∧ tr2.nTransitions = 0 ∧
      (sumLen tr.buffer < steps →
        tr2.logMsgs = tr.logMsgs ++ [shortfallMsg steps (sumLen tr.buffer)] ∧
        tr2.rolloutCalls = tr.rolloutCalls ++ [steps - sumLen tr.buffer] ∧
        ∃ k, res = (tr.buffer.reverse ++ recorded).take k) ∧
      (steps ≤ sumLen tr.buffer →
        tr2.logMsgs = tr.logMsgs ∧
        tr2.rolloutCalls = tr.rolloutCalls ∧
        ∃ k, res = tr.buffer.reverse.take k) := by
  have hrev : sumLen tr.buffer.reverse = sumLen tr.buffer := sumLen_reverse tr.buffer
  by_cases hcase : sumLen tr.buffer < steps
  · have hc2 : sumLen tr.buffer.reverse < steps := by rwa [hrev]
    have heq : AgentTrainer.sample tr steps recorded =
        (getTrajectories (tr.buffer.reverse ++ recorded) steps,
         { tr with
             buffer := []
             nTransitions := 0
             logMsgs := tr.logMsgs ++ [shortfallMsg steps (sumLen tr.buffer.reverse)]
             rolloutCalls := tr.rolloutCalls ++ [steps - sumLen tr.buffer.reverse] }) := by
      simp only [AgentTrainer.sample]
      rw [if_pos hc2]
    have htot : steps ≤ sumLen (tr.buffer.reverse ++ recorded) := by
      rw [sumLen_append, hrev]
      omega
    obtain ⟨idx, hidx, hsel, hge, hmini⟩ :=
      getTrajectories_ok (tr.buffer.reverse ++ recorded) steps h1 htot
    refine ⟨(tr.buffer.reverse ++ recorded).take (idx + 1), _,
      by rw [heq, hsel], hge, ?_, rfl, rfl, ?_, ?_⟩
    · intro t ht
      have hmem : t ∈ tr.buffer.reverse ++ recorded := List.take_subset _ _ ht
      rcases List.mem_append.mp hmem with hmem2 | hmem2
      · exact hbuf t (List.mem_reverse.mp hmem2)
      · exact hrec t hmem2
    · intro _
      exact ⟨by rw [← hrev], by rw [← hrev], ⟨idx + 1, rfl⟩⟩
    · intro hge2
      exact absurd hge2 (by omega)
  · have hc2 : ¬ sumLen tr.buffer.reverse < steps := by rwa [hrev]
    have heq : AgentTrainer.sample tr steps recorded =
        (getTrajectories tr.buffer.reverse steps,
         { tr with buffer := [], nTransitions := 0 }) := by
      simp only [AgentTrainer.sample]
      rw [if_neg hc2]
    have htot : steps ≤ sumLen tr.buffer.reverse := by omega
    obtain ⟨idx, hidx, hsel, hge, hmini⟩ :=
      getTrajectories_ok tr.buffer.reverse steps h1 htot
    refine ⟨tr.buffer.reverse.take (idx + 1), _,
      by rw [heq, hsel], hge, ?_, rfl, rfl, ?_, ?_⟩
    · intro t ht
      exact hbuf t (List.mem_reverse.mp (List.take_subset _ _ ht))
    · intro hlt2
      exact absurd hlt2 (by omega)
    · intro _
      exact ⟨rfl, rfl, ⟨idx + 1, rfl⟩⟩

/-- The spec's top-up scenario: the buffer holds trajectories of lengths 2
and 3 (5 steps in total). -/
def demoTopupTrainer : AgentTrainer :=
  { demoIdleTrainer with
    buffer := [Traj.mk 2 RewSrc.env, Traj.mk 3 RewSrc.env]
    nTransitions := 5 }

/-- Witness for C4 (the spec's top-up scenario): buffer sums to 5, `sample(8)`
is called, the buffering wrapper records one more trajectory of length 3
during the forced rollout; all hypotheses hold and the conclusion follows. -/
theorem agentTrainer_sample_spec_witness :
    1 ≤ 8 ∧
    (∀ t ∈ demoTopupTrainer.buffer, t.rewSrc = RewSrc.env) ∧
    (∀ t ∈ [Traj.mk 3 RewSrc.env], t.rewSrc = RewSrc.env) ∧
    8 - sumLen demoTopupTrainer.buffer ≤ sumLen [Traj.mk 3 RewSrc.env] ∧
    (∃ res tr2, AgentTrainer.sample demoTopupTrainer 8 [Traj.mk 3 RewSrc.env] =
        (Except.ok res, tr2) ∧
      8 ≤ sumLen res ∧
      (∀ t ∈ res, t.rewSrc = RewSrc.env) ∧
      tr2.buffer = [] ∧ tr2.nTransitions = 0 ∧
      (sumLen demoTopupTrainer.buffer < 8 →
        tr2.logMsgs = demoTopupTrainer.logMsgs ++
          [shortfallMsg 8 (sumLen demoTopupTrainer.buffer)] ∧
        tr2.rolloutCalls = demoTopupTrainer.rolloutCalls ++
          [8 - sumLen demoTopupTrainer.buffer] ∧
        ∃ k, res = (demoTopupTrainer.buffer.reverse ++ [Traj.mk 3 RewSrc.env]).take k) ∧
      (8 ≤ sumLen demoTopupTrainer.buffer →
        tr2.logMsgs = demoTopupTrainer.logMsgs ∧
        tr2.rolloutCalls = demoTopupTrainer.rolloutCalls ∧
        ∃ k, res = demoTopupTrainer.buffer.reverse.take k)) :=
  ⟨by decide, by decide, by decide, by decide,
    agentTrainer_sample_spec demoTopupTrainer 8 [Traj.mk 3 RewSrc.env]
      (by decide) (by decide) (by decide) (by decide)⟩

/-- Counterexample to C4 as stated: calling `sample(0)` on a trainer whose
buffer is empty takes the no-top-up branch (the drained sum `0` is not below
`steps = 0`), and the final `_get_trajectories([], 0)` then raises via
`argmax` on the empty cumulative-sum array, so no trajectories at all are
returned — the claim's conclusion (returned summed length `>= steps`) fails
at this call. -/
theorem agentTrainer_sample_zero_cex :
    ¬ sumLen demoIdleTrainer.buffer < 0 ∧
    (AgentTrainer.sample demoIdleTrainer 0 []).1 =
      Except.error "attempt to get argmax of an empty sequence" :=
  ⟨by omega, rfl⟩
